import Mathlib

/-!
Shallow embedding of the reconciliation and availability logic of
`AvailabilityManager.py`.

Times are modelled as natural numbers counting minutes since an epoch that
falls on a Monday at 00:00 (so `weekday = (t / 1440) % 7` matches Python's
`date.weekday()` with 0 = Monday).  Calendar events carry an optional
summary and an optional status, mirroring `event.get('summary', '')` and
`event.get('status')`.  The calendar gateway's `events().list` calls are
modelled by an oracle from the concrete call site to `Except Unit (List
CEvent)`: `Except.error` stands for an `HttpError` (or any exception)
raised by the call, which in the Python source is uncaught at every list
site.  Listing is modelled as returning the day's events.
-/

/-! ## String tokens of the source -/

def emptyString : String := ""

def markerToken : String := "free4booking"

def roomToken : String := "lokaal fa1"

def cancelledStatus : String := "cancelled"

def free4bookingSummary : String := "Free4Booking"

def voormiddagToken : String := "Voormiddag"

def namiddagToken : String := "Namiddag"

def maandagToken : String := "MAANDAG"

def dinsdagToken : String := "DINSDAG"

def woensdagToken : String := "WOENSDAG"

def donderdagToken : String := "DONDERDAG"

def vrijdagToken : String := "VRIJDAG"

/-- Python's `str.lower()` (over the character list, so that it computes
by kernel reduction). -/
def toLowerStr (s : String) : String := ⟨s.data.map Char.toLower⟩

/-- Character-list prefix test. -/
def charsPre : List Char → List Char → Bool
  | [], _ => true
  | _ :: _, [] => false
  | a :: as, b :: bs => decide (a = b) && charsPre as bs

/-- Character-list contiguous-substring test. -/
def charsSub (needle : List Char) : List Char → Bool
  | [] => charsPre needle []
  | b :: bs => charsPre needle (b :: bs) || charsSub needle bs

/-- Python's `needle in hay` substring test. -/
def containsSub (needle hay : String) : Bool :=
  charsSub needle.toList hay.toList

/-! ## Data model -/

/-- A calendar event as the core reads it: external id, optional summary
(`event.get('summary', '')`), parsed start/end times in minutes, and the
optional `status` field. -/
structure CEvent where
  id : Nat
  summary : Option String
  start : Nat
  eend : Nat
  status : Option String
deriving DecidableEq

/-- `event.get('summary', '').lower()`. -/
def lowerSummary (e : CEvent) : String :=
  toLowerStr (e.summary.getD emptyString)

/-- The overlap test used at both scan sites:
`max(event_start, slot_start) < min(event_end, slot_end)`. -/
def overlapsSlot (es ee ss se : Nat) : Bool :=
  decide (max es ss < min ee se)

/-- `proposed_slot_start.weekday()` (0 = Monday). -/
def weekdayOf (t : Nat) : Nat := (t / 1440) % 7

/-- `proposed_slot_start.hour`. -/
def hourOf (t : Nat) : Nat := (t % 1440) / 60

/-- `"Voormiddag" if proposed_slot_start.hour < 12 else "Namiddag"`. -/
def timeOfDay (ss : Nat) : String :=
  if hourOf ss < 12 then voormiddagToken else namiddagToken

/-- The work schedule: `work_schedule[day_name][time_of_day]` yielding the
`exp1` and `exp2` name lists; `none` models any `KeyError` in the lookup
(missing day, missing period, or missing role key), which the source
catches and turns into `False`. -/
abbrev WorkSchedule := String → String → Option (List String × List String)

/-- `WEEKDAY_MAP_NL`: Python weekday number to Dutch day name (Mon-Fri). -/
def WEEKDAY_MAP_NL (n : Nat) : Option String :=
  if n = 0 then some maandagToken
  else if n = 1 then some dinsdagToken
  else if n = 2 then some woensdagToken
  else if n = 3 then some donderdagToken
  else if n = 4 then some vrijdagToken
  else none

/-! ## SlotAvailabilityEngine (`check_person_availability`) -/

/-- An event is counted by the staffing scan unless its status is
`cancelled` or its summary contains the placeholder marker. -/
def countedEvent (e : CEvent) : Bool :=
  !(decide (e.status = some cancelledStatus)) &&
    !(containsSub markerToken (lowerSummary e))

/-- `all_required_staff`: the set of lowercased names of both roles. -/
def allRequiredStaff (exp1 exp2 : List String) : List String :=
  (exp1.map toLowerStr ++ exp2.map toLowerStr).dedup

/-- A lowercased staff name is marked booked iff some counted event
overlapping the slot has it as a substring of its lowercased summary. -/
def staffIsBooked (events : List CEvent) (ss se : Nat) (s : String) : Bool :=
  events.any (fun e =>
    countedEvent e && overlapsSlot e.start e.eend ss se &&
      containsSub s (lowerSummary e))

/-- `booked_staff_in_slot`, as the sublist of `all_required_staff` marked
booked by the scan. -/
def bookedStaffInSlot (events : List CEvent) (ss se : Nat)
    (exp1 exp2 : List String) : List String :=
  (allRequiredStaff exp1 exp2).filter (fun s => staffIsBooked events ss se s)

/-- One role's availability loop: some name in the role's list whose
lowercase form is not in the booked set. -/
def roleCovered (events : List CEvent) (ss se : Nat)
    (exp1 exp2 names : List String) : Bool :=
  names.any (fun n =>
    !(decide (toLowerStr n ∈ bookedStaffInSlot events ss se exp1 exp2)))

/-- `check_person_availability`, over the day's listed events. -/
def checkPersonAvailability (ss se : Nat) (workSchedule : WorkSchedule)
    (weekdayMap : Nat → Option String) (events : List CEvent) : Bool :=
  match weekdayMap (weekdayOf ss) with
  | none => false
  | some dayName =>
    match workSchedule dayName (timeOfDay ss) with
    | none => false
    | some (exp1, exp2) =>
      if exp1.isEmpty || exp2.isEmpty then false
      else
        roleCovered events ss se exp1 exp2 exp1 &&
          roleCovered events ss se exp1 exp2 exp2

/-! ## Placeholder lifecycle (`manage_free4booking_events`) -/

/-- A gateway write requested by the placeholder lifecycle. -/
inductive GAction where
  | del (id : Nat)
  | ins (summary : String) (ss se : Nat)
deriving DecidableEq

/-- The list-call sites of the placeholder lifecycle: the delete pass's
listing, the per-slot room-occupancy listing, and the listing inside
`check_person_availability`. -/
inductive ListCall where
  | deleteScan (d : Nat)
  | roomScan (d : Nat) (slot : Nat)
  | staffScan (d : Nat) (slot : Nat)
deriving DecidableEq

/-- `delete_free4booking_events_for_day`'s delete requests: one per listed
event whose lowercased summary contains the marker. -/
def deleteFree4BookingActions (events : List CEvent) : List GAction :=
  (events.filter (fun e => containsSub markerToken (lowerSummary e))).map
    (fun e => GAction.del e.id)

/-- Condition 1 of the slot loop: `'lokaal fa1' in summary and
'free4booking' not in summary` and the interval overlap. -/
def isFa1Booked (events : List CEvent) (ss se : Nat) : Bool :=
  events.any (fun e =>
    containsSub roomToken (lowerSummary e) &&
      !(containsSub markerToken (lowerSummary e)) &&
      overlapsSlot e.start e.eend ss se)

/-- One slot of the day loop: list for the room check, list inside the
staffing check, then create the placeholder iff the room is free and the
staffing check passes.  An `error` is an uncaught list failure. -/
def slotPass (g : ListCall → Except Unit (List CEvent)) (sched : WorkSchedule)
    (d slotIdx ss se : Nat) : Except Unit (List GAction) :=
  match g (ListCall.roomScan d slotIdx) with
  | Except.error err => Except.error err
  | Except.ok evs =>
    let fa1 := isFa1Booked evs ss se
    match g (ListCall.staffScan d slotIdx) with
    | Except.error err => Except.error err
    | Except.ok evs2 =>
      let can := checkPersonAvailability ss se sched WEEKDAY_MAP_NL evs2
      if fa1 then Except.ok []
      else if !can then Except.ok []
      else Except.ok [GAction.ins free4bookingSummary ss se]

def morningStart (d : Nat) : Nat := d * 1440 + 540

def morningEnd (d : Nat) : Nat := d * 1440 + 720

def afternoonStart (d : Nat) : Nat := d * 1440 + 780

def afternoonEnd (d : Nat) : Nat := d * 1440 + 1020

/-- One non-weekend day of the horizon loop: the unconditional delete pass,
then the two slots.  The boolean is true iff an uncaught list failure
aborted the pass; the action list holds the writes requested before the
abort. -/
def dayPass (g : ListCall → Except Unit (List CEvent)) (sched : WorkSchedule)
    (d : Nat) : List GAction × Bool :=
  match g (ListCall.deleteScan d) with
  | Except.error _ => ([], true)
  | Except.ok evs =>
    let dels := deleteFree4BookingActions evs
    match slotPass g sched d 0 (morningStart d) (morningEnd d) with
    | Except.error _ => (dels, true)
    | Except.ok a1 =>
      match slotPass g sched d 1 (afternoonStart d) (afternoonEnd d) with
      | Except.error _ => (dels ++ a1, true)
      | Except.ok a2 => (dels ++ a1 ++ a2, false)

/-- The horizon loop over a list of days: weekends are skipped entirely; a
day-pass abort (uncaught exception) terminates the whole loop, leaving
every later day unprocessed. -/
def manageLoop (g : ListCall → Except Unit (List CEvent))
    (sched : WorkSchedule) : List Nat → List (Nat × List GAction) × Bool
  | [] => ([], false)
  | d :: ds =>
    if d % 7 ≥ 5 then manageLoop g sched ds
    else
      let p := dayPass g sched d
      if p.2 then ([(d, p.1)], true)
      else
        let rest := manageLoop g sched ds
        ((d, p.1) :: rest.1, rest.2)

def DAYS_TO_CHECK : Nat := 20

/-! ## Import pass (`add_fa1_bookings_to_calendar`) -/

/-- A reservation record scraped from the web page: the extractor always
fills `summary` and concrete `start`/`end` `dateTime` strings. -/
structure Record where
  summary : String
  startDT : String
  endDT : String
deriving DecidableEq

/-- A raw calendar event as the import pass sees it: `summary` may be
absent (`event['summary']` raises `KeyError` then), and the `start`/`end`
dicts carry a `dateTime` key only for timed events. -/
structure GEvent where
  summary : Option String
  startDT : Option String
  endDT : Option String
deriving DecidableEq

/-- The dedup signature `(summary, start.dateTime, end.dateTime)`. -/
abbrev Sig := String × String × String

def sigOfRecord (r : Record) : Sig := (r.summary, r.startDT, r.endDT)

/-- The event body inserted for a record. -/
def recordEvent (r : Record) : GEvent :=
  ⟨some r.summary, some r.startDT, some r.endDT⟩

/-- Signature collection over the existing events, restricted to events
whose start and end both have a concrete `dateTime`; `none` models the
uncaught `KeyError` from `event['summary']` on such an event with no
summary field. -/
def buildSigs : List GEvent → Option (List Sig)
  | [] => some []
  | e :: es =>
    match e.startDT, e.endDT with
    | some s, some t =>
      match e.summary with
      | some sm => (buildSigs es).map (fun l => (sm, s, t) :: l)
      | none => none
    | some _, none => buildSigs es
    | none, some _ => buildSigs es
    | none, none => buildSigs es

/-- The per-record loop: skip a record whose signature is already known,
otherwise insert its event (appending to the calendar) and add the
signature to the in-memory set at once.  Returns the final signature set,
the final calendar, and the records actually inserted, in order. -/
def importLoop : List Record → List Sig → List GEvent →
    List Sig × List GEvent × List Record
  | [], sigs, cal => (sigs, cal, [])
  | r :: rs, sigs, cal =>
    if sigOfRecord r ∈ sigs then importLoop rs sigs cal
    else
      let p := importLoop rs (sigOfRecord r :: sigs) (cal ++ [recordEvent r])
      (p.1, p.2.1, r :: p.2.2)

/-- `add_fa1_bookings_to_calendar` over a record batch and the calendar
events the gateway lists: early return on an empty batch, otherwise build
the signature set and run the dedup loop.  The result is the final
calendar and the inserted records; `none` is the `KeyError` crash during
signature building. -/
def addFa1Bookings (records : List Record) (cal : List GEvent) :
    Option (List GEvent × List Record) :=
  if records.isEmpty then some (cal, [])
  else
    match buildSigs cal with
    | none => none
    | some sigs =>
      let p := importLoop records sigs cal
      some (p.2.1, p.2.2)

/-! ## Concrete data used by witnesses and counterexamples -/

def nameA : String := "A"

def nameB : String := "B"

def nameC : String := "C"

def summaryAW : String := "A - vergadering"

def fa1Summary : String := "Lokaal FA1 gereserveerd"

def evEdgeW : CEvent := ⟨3, some summaryAW, 480, 540, none⟩

def evFA1W : CEvent := ⟨4, some fa1Summary, 540, 660, none⟩

def evFA1Cancelled : CEvent := ⟨5, some fa1Summary, 540, 660, some cancelledStatus⟩

def gRoomW : ListCall → Except Unit (List CEvent) := fun _ => Except.ok [evFA1W]

def gRoomCancelledW : ListCall → Except Unit (List CEvent) :=
  fun _ => Except.ok [evFA1Cancelled]

def schedNone : WorkSchedule := fun _ _ => none

def gC1 : ListCall → Except Unit (List CEvent) := fun c =>
  match c with
  | ListCall.roomScan 0 0 => Except.error ()
  | _ => Except.ok []

def summaryC7 : String := "Free4Booking (ochtend)"

def evC7 : CEvent := ⟨7, some summaryC7, 540, 720, none⟩

def dtA : String := "2026-01-05T09:00:00+01:00"

def dtB : String := "2026-01-05T10:00:00+01:00"

def summaryW : String := "N (lokaal FA1)"

def recW : Record := ⟨summaryW, dtA, dtB⟩

def evNoSummary : GEvent := ⟨none, some dtA, some dtB⟩

/-! ## Helper lemmas -/

/-- Any listed event matching the room condition and overlapping the slot
makes condition 1 fire. -/
theorem isFa1Booked_of_mem {evs : List CEvent} {e : CEvent} {ss se : Nat}
    (he : e ∈ evs)
    (hroom : containsSub roomToken (lowerSummary e) = true)
    (hmark : containsSub markerToken (lowerSummary e) = false)
    (hov : overlapsSlot e.start e.eend ss se = true) :
    isFa1Booked evs ss se = true := by
  apply List.any_eq_true.mpr
  exact ⟨e, he, by simp [hroom, hmark, hov]⟩

/-- If condition 1 fires, the slot pass either completes without any
action or aborts on the staffing listing; it never inserts. -/
theorem slotPass_of_fa1 (g : ListCall → Except Unit (List CEvent))
    (sched : WorkSchedule) (d slotIdx ss se : Nat) (evs : List CEvent)
    (hg : g (ListCall.roomScan d slotIdx) = Except.ok evs)
    (hfa1 : isFa1Booked evs ss se = true) :
    slotPass g sched d slotIdx ss se = Except.ok []
      ∨ slotPass g sched d slotIdx ss se = Except.error () := by
  unfold slotPass
  rw [hg]
  cases hst : g (ListCall.staffScan d slotIdx) with
  | error err => right; cases err; rfl
  | ok evs2 => left; simp [hfa1]

/-- `manage_free4booking_events`: the horizon is today through today +
`DAYS_TO_CHECK`, inclusive. -/
def manageFree4BookingEvents (g : ListCall → Except Unit (List CEvent))
    (sched : WorkSchedule) (startDay : Nat) :
    List (Nat × List GAction) × Bool :=
  manageLoop g sched ((List.range (DAYS_TO_CHECK + 1)).map
    (fun i => startDay + i))

/-! ## Claim theorems -/

/-- Claim C4: if some non-placeholder, non-cancelled event whose summary
signals the tracked room overlaps the slot interval, the placeholder
lifecycle pass creates no placeholder event for that slot (it either
completes the slot without any action or aborts before inserting),
regardless of the staffing schedule. -/
theorem c4_room_occupancy_blocks (g : ListCall → Except Unit (List CEvent))
    (sched : WorkSchedule) (d slotIdx ss se : Nat) (evs : List CEvent)
    (e : CEvent)
    (hg : g (ListCall.roomScan d slotIdx) = Except.ok evs)
    (he : e ∈ evs)
    (hroom : containsSub roomToken (lowerSummary e) = true)
    (hmark : containsSub markerToken (lowerSummary e) = false)
    (hstat : e.status ≠ some cancelledStatus)
    (hov : overlapsSlot e.start e.eend ss se = true) :
    slotPass g sched d slotIdx ss se = Except.ok []
      ∨ slotPass g sched d slotIdx ss se = Except.error () := by
  exact slotPass_of_fa1 g sched d slotIdx ss se evs hg
    (isFa1Booked_of_mem he hroom hmark hov)

/-- Witness for C4 at a concrete room-booked morning slot. -/
theorem c4_room_occupancy_blocks_witness :
    gRoomW (ListCall.roomScan 0 0) = Except.ok [evFA1W]
    ∧ evFA1W ∈ [evFA1W]
    ∧ containsSub roomToken (lowerSummary evFA1W) = true
    ∧ containsSub markerToken (lowerSummary evFA1W) = false
    ∧ evFA1W.status ≠ some cancelledStatus
    ∧ overlapsSlot evFA1W.start evFA1W.eend 540 720 = true
    ∧ (slotPass gRoomW schedNone 0 0 540 720 = Except.ok []
        ∨ slotPass gRoomW schedNone 0 0 540 720 = Except.error ()) := by
  refine ⟨rfl, by simp, by decide, by decide, by decide, by decide, ?_⟩
  exact c4_room_occupancy_blocks gRoomW schedNone 0 0 540 720 [evFA1W] evFA1W
    rfl (by simp) (by decide) (by decide) (by decide) (by decide)

/-- Claim C9: the room-occupancy check does not filter by event status: an
overlapping event whose summary contains the room token (and not the
marker) blocks placeholder creation for the slot even when its status is
cancelled. -/
theorem c9_cancelled_event_blocks_room
    (g : ListCall → Except Unit (List CEvent)) (sched : WorkSchedule)
    (d slotIdx ss se : Nat) (evs : List CEvent) (e : CEvent)
    (hg : g (ListCall.roomScan d slotIdx) = Except.ok evs)
    (he : e ∈ evs)
    (hroom : containsSub roomToken (lowerSummary e) = true)
    (hmark : containsSub markerToken (lowerSummary e) = false)
    (hstat : e.status = some cancelledStatus)
    (hov : overlapsSlot e.start e.eend ss se = true) :
    isFa1Booked evs ss se = true
    ∧ (slotPass g sched d slotIdx ss se = Except.ok []
        ∨ slotPass g sched d slotIdx ss se = Except.error ()) := by
  refine ⟨isFa1Booked_of_mem he hroom hmark hov, ?_⟩
  exact slotPass_of_fa1 g sched d slotIdx ss se evs hg
    (isFa1Booked_of_mem he hroom hmark hov)

/-- Witness for C9 with a concrete cancelled room event. -/
theorem c9_cancelled_event_blocks_room_witness :
    gRoomCancelledW (ListCall.roomScan 0 0) = Except.ok [evFA1Cancelled]
    ∧ evFA1Cancelled ∈ [evFA1Cancelled]
    ∧ containsSub roomToken (lowerSummary evFA1Cancelled) = true
    ∧ containsSub markerToken (lowerSummary evFA1Cancelled) = false
    ∧ evFA1Cancelled.status = some cancelledStatus
    ∧ overlapsSlot evFA1Cancelled.start evFA1Cancelled.eend 540 720 = true
    ∧ (isFa1Booked [evFA1Cancelled] 540 720 = true
        ∧ (slotPass gRoomCancelledW schedNone 0 0 540 720 = Except.ok []
            ∨ slotPass gRoomCancelledW schedNone 0 0 540 720
                = Except.error ())) := by
  refine ⟨rfl, by simp, by decide, by decide, by decide, by decide, ?_⟩
  exact c9_cancelled_event_blocks_room gRoomCancelledW schedNone 0 0 540 720
    [evFA1Cancelled] evFA1Cancelled rfl (by simp) (by decide) (by decide)
    (by decide) (by decide)

/-- Claim C6: both the staffing scan and the room-occupancy check use the
half-open test `max(eventStart, slotStart) < min(eventEnd, slotEnd)`; an
event ending exactly at slot start or starting exactly at slot end does
not overlap, and a non-overlapping event contributes to neither scan. -/
theorem c6_half_open_overlap : ∀ es ee ss se : Nat,
    (overlapsSlot es ee ss se = true ↔ max es ss < min ee se)
    ∧ ((ee = ss ∨ es = se) → overlapsSlot es ee ss se = false)
    ∧ (∀ (e : CEvent) (evs : List CEvent) (exp1 exp2 : List String),
        e.start = es → e.eend = ee → overlapsSlot es ee ss se = false →
        bookedStaffInSlot (e :: evs) ss se exp1 exp2
            = bookedStaffInSlot evs ss se exp1 exp2
        ∧ isFa1Booked (e :: evs) ss se = isFa1Booked evs ss se) := by
  intro es ee ss se
  refine ⟨by simp [overlapsSlot], ?_, ?_⟩
  · intro h
    simp only [overlapsSlot, decide_eq_false_iff_not, not_lt]
    rcases h with h | h
    · subst h
      exact le_trans (min_le_left _ _) (le_max_right _ _)
    · subst h
      exact le_trans (min_le_right _ _) (le_max_left _ _)
  · intro e evs exp1 exp2 h1 h2 hov
    constructor
    · unfold bookedStaffInSlot
      congr 1
      funext s
      simp [staffIsBooked, h1, h2, hov]
    · simp [isFa1Booked, h1, h2, hov]

/-- Witness for C6 at an event ending exactly at slot start. -/
theorem c6_half_open_overlap_witness :
    ((540 : Nat) = 540 ∨ (480 : Nat) = 720)
    ∧ overlapsSlot 480 540 540 720 = false
    ∧ (evEdgeW.start = 480 ∧ evEdgeW.eend = 540)
    ∧ bookedStaffInSlot [evEdgeW] 540 720 [nameA] [nameC]
        = bookedStaffInSlot [] 540 720 [nameA] [nameC]
    ∧ isFa1Booked [evEdgeW] 540 720 = isFa1Booked [] 540 720 := by
  refine ⟨Or.inl rfl, ?_, ⟨rfl, rfl⟩, ?_, ?_⟩
  · exact (c6_half_open_overlap 480 540 540 720).2.1 (Or.inl rfl)
  · exact ((c6_half_open_overlap 480 540 540 720).2.2 evEdgeW [] [nameA]
      [nameC] rfl rfl (by decide)).1
  · exact ((c6_half_open_overlap 480 540 540 720).2.2 evEdgeW [] [nameA]
      [nameC] rfl rfl (by decide)).2

/-- Claim C7 counterexample: an event whose summary is not (even
case-insensitively) equal to the marker string is nevertheless deleted,
because the source tests substring containment, not exact match. -/
theorem c7_counterexample :
    toLowerStr summaryC7 ≠ markerToken
    ∧ deleteFree4BookingActions [evC7] = [GAction.del 7] := by
  exact ⟨by decide, rfl⟩

/-- Claim C7 amended: the placeholder lifecycle's delete pass issues a
delete exactly for the listed events whose lowercased summary CONTAINS
the marker as a substring; in particular, no delete is issued for an
event whose lowercased summary does not contain the marker. -/
theorem c7_amended_substring_deletes :
    ∀ (events : List CEvent) (a : GAction),
      a ∈ deleteFree4BookingActions events ↔
        ∃ e, e ∈ events ∧ containsSub markerToken (lowerSummary e) = true
          ∧ a = GAction.del e.id := by
  intro events a
  simp only [deleteFree4BookingActions, List.mem_map, List.mem_filter]
  constructor
  · rintro ⟨e, ⟨he, hm⟩, hdel⟩
    exact ⟨e, he, hm, hdel.symm⟩
  · rintro ⟨e, he, hm, hdel⟩
    exact ⟨e, ⟨he, hm⟩, hdel.symm⟩

/-- Witness for the amended C7 at a concrete marker-containing event. -/
theorem c7_amended_substring_deletes_witness :
    GAction.del 7 ∈ deleteFree4BookingActions [evC7] := by
  exact (c7_amended_substring_deletes [evC7] (GAction.del 7)).mpr
    ⟨evC7, by simp, by decide, rfl⟩

/-- Claim C1 counterexample: the decision-feeding room listing of day 0
fails; day 1 is a non-weekend day inside the horizon whose list calls all
succeed, yet the horizon trace stops at day 0 — the placeholder pass is
never executed for day 1 (or any later day). -/
theorem c1_counterexample :
    gC1 (ListCall.roomScan 0 0) = Except.error ()
    ∧ gC1 (ListCall.deleteScan 1) = Except.ok []
    ∧ gC1 (ListCall.roomScan 1 0) = Except.ok []
    ∧ (1 : Nat) % 7 < 5
    ∧ (manageFree4BookingEvents gC1 schedNone 0).1.map Prod.fst = [0]
    ∧ (manageFree4BookingEvents gC1 schedNone 0).2 = true := by
  exact ⟨rfl, rfl, rfl, by decide, by rfl, by rfl⟩

/-- Claim C1 amended: a list failure inside a (non-weekend) day's
placeholder pass is uncaught, so it aborts not just that day's pass but
the entire remaining horizon loop: the loop ends at that day and no later
day is processed. -/
theorem c1_list_failure_aborts_horizon
    (g : ListCall → Except Unit (List CEvent)) (sched : WorkSchedule)
    (d : Nat) (ds : List Nat) (acts : List GAction)
    (hwd : d % 7 < 5) (hfail : dayPass g sched d = (acts, true)) :
    manageLoop g sched (d :: ds) = ([(d, acts)], true) := by
  simp only [manageLoop, hfail]
  rw [if_neg (by omega)]
  simp

/-- Witness for the amended C1: the day-0 failure stops the loop before
day 1. -/
theorem c1_list_failure_aborts_horizon_witness :
    (0 : Nat) % 7 < 5
    ∧ dayPass gC1 schedNone 0 = ([], true)
    ∧ manageLoop gC1 schedNone [0, 1] = ([(0, [])], true) := by
  refine ⟨by decide, rfl, ?_⟩
  exact c1_list_failure_aborts_horizon gC1 schedNone 0 [1] [] (by decide) rfl

/-- Claim C10 / code bug: an existing calendar event with concrete start
and end timestamps but no summary field makes the import pass fail
(`event['summary']` raises `KeyError`, which the pass's `except HttpError`
does not catch), instead of being treated as having an empty summary. -/
theorem c10_missing_summary_crashes_import :
    evNoSummary.summary = none
    ∧ evNoSummary.startDT = some dtA
    ∧ evNoSummary.endDT = some dtB
    ∧ buildSigs [evNoSummary] = none
    ∧ addFa1Bookings [recW] [evNoSummary] = none := by
  exact ⟨rfl, rfl, rfl, rfl, rfl⟩

/-! ## Helpers for C5 and C8 -/

theorem any_map_comp {α β : Type} (l : List α) (f : α → β) (p : β → Bool) :
    (l.map f).any p = l.any (fun a => p (f a)) := by
  induction l with
  | nil => rfl
  | cons a as ih => simp [List.any_cons, ih]

theorem mem_allRequiredStaff (exp1 exp2 : List String) (x : String) :
    x ∈ allRequiredStaff exp1 exp2 ↔
      (∃ n ∈ exp1, toLowerStr n = x) ∨ (∃ n ∈ exp2, toLowerStr n = x) := by
  simp [allRequiredStaff, List.mem_dedup, List.mem_append, List.mem_map]

theorem mem_booked_perm {exp1 exp2 exp1b exp2b : List String}
    (hp1 : exp1b.Perm exp1) (hp2 : exp2b.Perm exp2)
    (events : List CEvent) (ss se : Nat) (x : String) :
    x ∈ bookedStaffInSlot events ss se exp1b exp2b ↔
      x ∈ bookedStaffInSlot events ss se exp1 exp2 := by
  simp only [bookedStaffInSlot, List.mem_filter, mem_allRequiredStaff]
  constructor
  · rintro ⟨hmem, hb⟩
    refine ⟨?_, hb⟩
    rcases hmem with ⟨n, hn, he⟩ | ⟨n, hn, he⟩
    · exact Or.inl ⟨n, hp1.subset hn, he⟩
    · exact Or.inr ⟨n, hp2.subset hn, he⟩
  · rintro ⟨hmem, hb⟩
    refine ⟨?_, hb⟩
    rcases hmem with ⟨n, hn, he⟩ | ⟨n, hn, he⟩
    · exact Or.inl ⟨n, hp1.symm.subset hn, he⟩
    · exact Or.inr ⟨n, hp2.symm.subset hn, he⟩

theorem roleCovered_perm {exp1 exp2 exp1b exp2b names namesb : List String}
    (hp1 : exp1b.Perm exp1) (hp2 : exp2b.Perm exp2) (hpn : namesb.Perm names)
    (events : List CEvent) (ss se : Nat) :
    roleCovered events ss se exp1b exp2b namesb
      = roleCovered events ss se exp1 exp2 names := by
  rw [Bool.eq_iff_iff]
  simp only [roleCovered, List.any_eq_true, Bool.not_eq_true',
    decide_eq_false_iff_not]
  constructor
  · rintro ⟨n, hn, hnb⟩
    exact ⟨n, hpn.subset hn,
      fun hc => hnb ((mem_booked_perm hp1 hp2 events ss se _).mpr hc)⟩
  · rintro ⟨n, hn, hnb⟩
    exact ⟨n, hpn.symm.subset hn,
      fun hc => hnb ((mem_booked_perm hp1 hp2 events ss se _).mp hc)⟩

/-- Claim C5: with a present, fully staffed roster entry, the engine
returns true iff each role's list has at least one name whose lowercase
form is not in the booked set; and replacing the entry by one with both
lists reordered never changes the boolean result. -/
theorem c5_coverage_and_order_invariance (ss se : Nat)
    (wm : Nat → Option String) (sched sched2 : WorkSchedule) (dn : String)
    (exp1 exp2 exp1b exp2b : List String) (events : List CEvent)
    (hwm : wm (weekdayOf ss) = some dn)
    (hs : sched dn (timeOfDay ss) = some (exp1, exp2))
    (hs2 : sched2 dn (timeOfDay ss) = some (exp1b, exp2b))
    (hp1 : exp1b.Perm exp1) (hp2 : exp2b.Perm exp2)
    (h1 : exp1 ≠ []) (h2 : exp2 ≠ []) :
    (checkPersonAvailability ss se sched wm events = true ↔
      ((∃ n ∈ exp1, toLowerStr n ∉ bookedStaffInSlot events ss se exp1 exp2)
        ∧ (∃ n ∈ exp2,
            toLowerStr n ∉ bookedStaffInSlot events ss se exp1 exp2)))
    ∧ checkPersonAvailability ss se sched2 wm events
        = checkPersonAvailability ss se sched wm events := by
  have e1b : exp1b ≠ [] := by
    intro h
    subst h
    exact h1 hp1.symm.eq_nil
  have e2b : exp2b ≠ [] := by
    intro h
    subst h
    exact h2 hp2.symm.eq_nil
  have hck : checkPersonAvailability ss se sched wm events =
      (roleCovered events ss se exp1 exp2 exp1 &&
        roleCovered events ss se exp1 exp2 exp2) := by
    simp [checkPersonAvailability, hwm, hs, List.isEmpty_eq_false.mpr h1,
      List.isEmpty_eq_false.mpr h2]
  have hck2 : checkPersonAvailability ss se sched2 wm events =
      (roleCovered events ss se exp1b exp2b exp1b &&
        roleCovered events ss se exp1b exp2b exp2b) := by
    simp [checkPersonAvailability, hwm, hs2, List.isEmpty_eq_false.mpr e1b,
      List.isEmpty_eq_false.mpr e2b]
  constructor
  · rw [hck]
    simp only [Bool.and_eq_true, roleCovered, List.any_eq_true,
      Bool.not_eq_true', decide_eq_false_iff_not]
  · rw [hck, hck2, roleCovered_perm hp1 hp2 hp1 events ss se,
      roleCovered_perm hp1 hp2 hp2 events ss se]

def schedW5 : WorkSchedule := fun d t =>
  if d = maandagToken ∧ t = voormiddagToken then some ([nameA, nameB], [nameC])
  else none

def schedW5b : WorkSchedule := fun d t =>
  if d = maandagToken ∧ t = voormiddagToken then some ([nameB, nameA], [nameC])
  else none

def evAW : CEvent := ⟨1, some summaryAW, 540, 660, none⟩

def evAW2 : CEvent := ⟨9, some summaryAW, 540, 660, none⟩

/-- Witness for C5: Monday-morning roster exp1 = [A, B], exp2 = [C], one
event booking A; swapping exp1's order leaves the decision unchanged. -/
theorem c5_coverage_and_order_invariance_witness :
    WEEKDAY_MAP_NL (weekdayOf 540) = some maandagToken
    ∧ schedW5 maandagToken (timeOfDay 540) = some ([nameA, nameB], [nameC])
    ∧ schedW5b maandagToken (timeOfDay 540) = some ([nameB, nameA], [nameC])
    ∧ List.Perm [nameB, nameA] [nameA, nameB]
    ∧ List.Perm [nameC] [nameC]
    ∧ [nameA, nameB] ≠ ([] : List String)
    ∧ [nameC] ≠ ([] : List String)
    ∧ checkPersonAvailability 540 720 schedW5b WEEKDAY_MAP_NL [evAW]
        = checkPersonAvailability 540 720 schedW5 WEEKDAY_MAP_NL [evAW] := by
  refine ⟨rfl, by decide, by decide, List.Perm.swap nameA nameB [],
    List.Perm.refl [nameC], by decide, by decide, ?_⟩
  exact (c5_coverage_and_order_invariance 540 720 WEEKDAY_MAP_NL schedW5
    schedW5b maandagToken [nameA, nameB] [nameC] [nameB, nameA] [nameC]
    [evAW] rfl (by decide) (by decide) (List.Perm.swap nameA nameB [])
    (List.Perm.refl [nameC]) (by decide) (by decide)).2

/-! ## Helpers for C8 -/

/-- The contract-relevant data of an event: everything except the external
id. -/
def eventData (e : CEvent) : Option String × Nat × Nat × Option String :=
  (e.summary, e.start, e.eend, e.status)

theorem staffIsBooked_data_congr {events events2 : List CEvent}
    (h : events.map eventData = events2.map eventData) (ss se : Nat) :
    staffIsBooked events ss se = staffIsBooked events2 ss se := by
  funext s
  have key : ∀ l : List CEvent, staffIsBooked l ss se s
      = (l.map eventData).any (fun t =>
          (!(decide (t.2.2.2 = some cancelledStatus)) &&
            !(containsSub markerToken (toLowerStr (t.1.getD emptyString)))) &&
          overlapsSlot t.2.1 t.2.2.1 ss se &&
          containsSub s (toLowerStr (t.1.getD emptyString))) := by
    intro l
    rw [any_map_comp]
    rfl
  rw [key events, key events2, h]

/-- Claim C8: the slot-availability decision is a pure function of the
contract inputs: its result is determined by the slot interval, the
roster and the events' (summary, start, end, status) data alone (the
external event ids are irrelevant, and equal inputs give equal results);
and the only write the surrounding slot pass ever requests is the single
placeholder insert, so evaluating the decision writes nothing. -/
theorem c8_pure_decision (ss se : Nat) (sched : WorkSchedule)
    (wm : Nat → Option String) (events events2 : List CEvent)
    (hdata : events.map eventData = events2.map eventData) :
    checkPersonAvailability ss se sched wm events
      = checkPersonAvailability ss se sched wm events2
    ∧ (∀ (g : ListCall → Except Unit (List CEvent)) (d slotIdx : Nat)
        (acts : List GAction),
        slotPass g sched d slotIdx ss se = Except.ok acts →
        acts = [] ∨ acts = [GAction.ins free4bookingSummary ss se]) := by
  constructor
  · have hsb := staffIsBooked_data_congr hdata ss se
    simp only [checkPersonAvailability, roleCovered, bookedStaffInSlot, hsb]
  · intro g d slotIdx acts h
    cases hg : g (ListCall.roomScan d slotIdx) with
    | error err =>
      simp [slotPass, hg] at h
    | ok evs =>
      cases hst : g (ListCall.staffScan d slotIdx) with
      | error err =>
        simp [slotPass, hg, hst] at h
      | ok evs2 =>
        simp only [slotPass, hg, hst] at h
        split at h
        · injection h with h2
          exact Or.inl h2.symm
        · split at h
          · injection h with h2
            exact Or.inl h2.symm
          · injection h with h2
            exact Or.inr h2.symm

/-- Witness for C8: two one-event lists with equal data but different ids
yield the same decision. -/
theorem c8_pure_decision_witness :
    List.map eventData [evAW] = List.map eventData [evAW2]
    ∧ checkPersonAvailability 540 720 schedW5 WEEKDAY_MAP_NL [evAW]
        = checkPersonAvailability 540 720 schedW5 WEEKDAY_MAP_NL [evAW2] := by
  refine ⟨rfl, ?_⟩
  exact (c8_pure_decision 540 720 schedW5 WEEKDAY_MAP_NL [evAW] [evAW2]
    rfl).1

/-! ## Helpers for C2 and C3 -/

theorem importLoop_sigs_mem : ∀ (rs : List Record) (sigs : List Sig)
    (cal : List GEvent) (s : Sig),
    s ∈ sigs → s ∈ (importLoop rs sigs cal).1 := by
  intro rs
  induction rs with
  | nil => intro sigs cal s hs; exact hs
  | cons a as ih =>
    intro sigs cal s hs
    by_cases h : sigOfRecord a ∈ sigs
    · simp only [importLoop, if_pos h]
      exact ih sigs cal s hs
    · simp only [importLoop, if_neg h]
      exact ih _ _ s (List.mem_cons_of_mem _ hs)

theorem importLoop_created_fresh : ∀ (rs : List Record) (sigs : List Sig)
    (cal : List GEvent),
    ((importLoop rs sigs cal).2.2.map sigOfRecord).Nodup
    ∧ ∀ s ∈ (importLoop rs sigs cal).2.2.map sigOfRecord, s ∉ sigs := by
  intro rs
  induction rs with
  | nil =>
    intro sigs cal
    exact ⟨by simp [importLoop], by simp [importLoop]⟩
  | cons a as ih =>
    intro sigs cal
    by_cases h : sigOfRecord a ∈ sigs
    · simp only [importLoop, if_pos h]
      exact ih sigs cal
    · simp only [importLoop, if_neg h, List.map_cons]
      obtain ⟨ihn, ihf⟩ := ih (sigOfRecord a :: sigs) (cal ++ [recordEvent a])
      constructor
      · exact List.nodup_cons.mpr
          ⟨fun hc => (ihf _ hc) (List.mem_cons_self _ _), ihn⟩
      · intro s hs
        rcases List.mem_cons.mp hs with heq | hs2
        · exact heq ▸ h
        · exact fun hcontra => (ihf s hs2) (List.mem_cons_of_mem _ hcontra)

theorem importLoop_created_or : ∀ (rs : List Record) (sigs : List Sig)
    (cal : List GEvent) (r : Record), r ∈ rs →
    sigOfRecord r ∈ sigs
      ∨ sigOfRecord r ∈ (importLoop rs sigs cal).2.2.map sigOfRecord := by
  intro rs
  induction rs with
  | nil => intro _ _ r hr; cases hr
  | cons a as ih =>
    intro sigs cal r hr
    by_cases h : sigOfRecord a ∈ sigs
    · simp only [importLoop, if_pos h]
      rcases List.mem_cons.mp hr with heq | hr2
      · exact Or.inl (heq ▸ h)
      · exact ih sigs cal r hr2
    · simp only [importLoop, if_neg h, List.map_cons]
      rcases List.mem_cons.mp hr with heq | hr2
      · exact Or.inr (heq ▸ List.mem_cons_self _ _)
      · rcases ih (sigOfRecord a :: sigs) (cal ++ [recordEvent a]) r hr2
          with hmem | hmem
        · rcases List.mem_cons.mp hmem with heq | hmem2
          · exact Or.inr (heq ▸ List.mem_cons_self _ _)
          · exact Or.inl hmem2
        · exact Or.inr (List.mem_cons_of_mem _ hmem)

theorem importLoop_cal : ∀ (rs : List Record) (sigs : List Sig)
    (cal : List GEvent),
    (importLoop rs sigs cal).2.1
      = cal ++ ((importLoop rs sigs cal).2.2).map recordEvent := by
  intro rs
  induction rs with
  | nil => intro sigs cal; simp [importLoop]
  | cons a as ih =>
    intro sigs cal
    by_cases h : sigOfRecord a ∈ sigs
    · simp only [importLoop, if_pos h]
      exact ih sigs cal
    · simp only [importLoop, if_neg h, List.map_cons]
      rw [ih (sigOfRecord a :: sigs) (cal ++ [recordEvent a])]
      simp

theorem importLoop_all_present : ∀ (rs : List Record) (sigs : List Sig)
    (cal : List GEvent), (∀ r ∈ rs, sigOfRecord r ∈ sigs) →
    importLoop rs sigs cal = (sigs, cal, []) := by
  intro rs
  induction rs with
  | nil => intro sigs cal _; rfl
  | cons a as ih =>
    intro sigs cal hall
    have ha : sigOfRecord a ∈ sigs := hall a (List.mem_cons_self _ _)
    simp only [importLoop, if_pos ha]
    exact ih sigs cal (fun r hr => hall r (List.mem_cons_of_mem _ hr))

theorem buildSigs_append : ∀ (a b : List GEvent) (sa sb : List Sig),
    buildSigs a = some sa → buildSigs b = some sb →
    buildSigs (a ++ b) = some (sa ++ sb) := by
  intro a
  induction a with
  | nil =>
    intro b sa sb ha hb
    simp only [buildSigs] at ha
    injection ha with ha
    subst ha
    simpa using hb
  | cons e es ih =>
    intro b sa sb ha hb
    cases hsd : e.startDT with
    | none =>
      simp only [buildSigs, hsd] at ha
      cases hed : e.endDT with
      | none =>
        rw [hed] at ha
        simp only [List.cons_append, buildSigs, hsd, hed]
        exact ih b sa sb ha hb
      | some t =>
        rw [hed] at ha
        simp only [List.cons_append, buildSigs, hsd, hed]
        exact ih b sa sb ha hb
    | some s =>
      cases hed : e.endDT with
      | none =>
        simp only [buildSigs, hsd, hed] at ha
        simp only [List.cons_append, buildSigs, hsd, hed]
        exact ih b sa sb ha hb
      | some t =>
        cases hsm : e.summary with
        | none =>
          simp only [buildSigs, hsd, hed, hsm] at ha
          exact Option.noConfusion ha
        | some sm =>
          simp only [buildSigs, hsd, hed, hsm, Option.map_eq_some'] at ha
          obtain ⟨l, hl, hsa⟩ := ha
          subst hsa
          simp only [List.cons_append, buildSigs, hsd, hed, hsm,
            Option.map_eq_some']
          exact ⟨l ++ sb, ih b l sb hl hb, rfl⟩

theorem buildSigs_recordEvents : ∀ rs : List Record,
    buildSigs (rs.map recordEvent) = some (rs.map sigOfRecord) := by
  intro rs
  induction rs with
  | nil => rfl
  | cons a as ih =>
    simp [buildSigs, recordEvent, sigOfRecord, List.map_cons, ih]

theorem length_filter_eq_one {α : Type} [DecidableEq α] :
    ∀ (l : List α) (a : α), l.Nodup → a ∈ l →
    (l.filter (fun x => decide (x = a))).length = 1 := by
  intro l
  induction l with
  | nil => intro a _ ha; cases ha
  | cons b bs ih =>
    intro a hn ha
    rcases List.mem_cons.mp ha with heq | hmem
    · subst heq
      have hnb : a ∉ bs := (List.nodup_cons.mp hn).1
      have hfil : bs.filter (fun x => decide (x = a)) = [] := by
        apply List.filter_eq_nil_iff.mpr
        intro x hx
        simp only [decide_eq_true_eq]
        intro hxb
        exact hnb (hxb ▸ hx)
      simp [List.filter_cons, hfil]
    · have hb : b ≠ a := by
        intro heq
        subst heq
        exact (List.nodup_cons.mp hn).1 hmem
      have hlen := ih a (List.nodup_cons.mp hn).2 hmem
      simp [List.filter_cons, hb, hlen]

/-- Claim C2: the import pass never creates two events with the same
(summary, start, end) signature: the signatures of the inserted records
are pairwise distinct and disjoint from the existing-event signatures;
a record whose signature already appears among the existing events with
concrete timestamps is never inserted; and a fresh record's signature is
inserted exactly once even if the record occurs several times in the
batch. -/
theorem c2_no_duplicate_import (records : List Record)
    (cal cal2 : List GEvent) (created : List Record) (sigs : List Sig)
    (hb : buildSigs cal = some sigs)
    (h : addFa1Bookings records cal = some (cal2, created)) :
    (created.map sigOfRecord).Nodup
    ∧ (∀ s ∈ created.map sigOfRecord, s ∉ sigs)
    ∧ (∀ r ∈ records, sigOfRecord r ∈ sigs →
        sigOfRecord r ∉ created.map sigOfRecord)
    ∧ (∀ r ∈ records, sigOfRecord r ∉ sigs →
        ((created.map sigOfRecord).filter
          (fun s => decide (s = sigOfRecord r))).length = 1) := by
  cases hre : records.isEmpty with
  | true =>
    have hrecs : records = [] := List.isEmpty_iff.mp hre
    subst hrecs
    simp only [addFa1Bookings, List.isEmpty_nil, if_true] at h
    injection h with h
    injection h with hcal hcre
    subst hcre
    simp
  | false =>
    simp only [addFa1Bookings, hre, Bool.false_eq_true, if_false, hb] at h
    injection h with h
    injection h with hcal hcre
    subst hcre
    obtain ⟨hnodup, hfresh⟩ := importLoop_created_fresh records sigs cal
    refine ⟨hnodup, hfresh, ?_, ?_⟩
    · intro r _ hsig hmem
      exact (hfresh _ hmem) hsig
    · intro r hr hnot
      exact length_filter_eq_one _ _ hnodup
        (Or.resolve_left (importLoop_created_or records sigs cal r hr) hnot)

/-- Witness for C2: a batch with a duplicated record against an empty
calendar inserts the record exactly once. -/
theorem c2_no_duplicate_import_witness :
    buildSigs ([] : List GEvent) = some []
    ∧ addFa1Bookings [recW, recW] [] = some ([recordEvent recW], [recW])
    ∧ (([recW].map sigOfRecord).filter
        (fun s => decide (s = sigOfRecord recW))).length = 1 := by
  refine ⟨rfl, by decide, ?_⟩
  exact (c2_no_duplicate_import [recW, recW] [] [recordEvent recW] [recW] []
    rfl (by decide)).2.2.2 recW (by simp) (by simp)

/-- Claim C3: the import pass is append-only (the final calendar is the
input calendar with the inserted events appended, so no existing event is
deleted or updated) and idempotent (a second run with the same batch
against the resulting calendar inserts nothing). -/
theorem c3_idempotent_append_only (records : List Record)
    (cal cal2 : List GEvent) (created : List Record)
    (h : addFa1Bookings records cal = some (cal2, created)) :
    cal2 = cal ++ created.map recordEvent
    ∧ addFa1Bookings records cal2 = some (cal2, []) := by
  cases hre : records.isEmpty with
  | true =>
    simp only [addFa1Bookings, hre, if_true] at h
    injection h with h
    injection h with hcal hcre
    subst hcre
    subst hcal
    exact ⟨by simp, by simp [addFa1Bookings, hre]⟩
  | false =>
    cases hbs : buildSigs cal with
    | none =>
      simp only [addFa1Bookings, hre, Bool.false_eq_true, if_false, hbs] at h
      exact Option.noConfusion h
    | some sigs =>
      simp only [addFa1Bookings, hre, Bool.false_eq_true, if_false, hbs] at h
      injection h with h
      injection h with hcal hcre
      subst hcre
      subst hcal
      have hc := importLoop_cal records sigs cal
      refine ⟨hc, ?_⟩
      have hb2 : buildSigs ((importLoop records sigs cal).2.1)
          = some (sigs ++ (importLoop records sigs cal).2.2.map sigOfRecord)
          := by
        rw [hc]
        exact buildSigs_append cal _ sigs _ hbs (buildSigs_recordEvents _)
      have hall : ∀ r ∈ records, sigOfRecord r
          ∈ sigs ++ (importLoop records sigs cal).2.2.map sigOfRecord := by
        intro r hr
        exact List.mem_append.mpr (importLoop_created_or records sigs cal r hr)
      simp only [addFa1Bookings, hre, Bool.false_eq_true, if_false, hb2]
      rw [importLoop_all_present records _ _ hall]

/-- Witness for C3: the duplicated-record batch run once, then run again
against the calendar it produced; the second run inserts nothing. -/
theorem c3_idempotent_append_only_witness :
    addFa1Bookings [recW, recW] [] = some ([recordEvent recW], [recW])
    ∧ [recordEvent recW] = [] ++ [recW].map recordEvent
    ∧ addFa1Bookings [recW, recW] [recordEvent recW]
        = some ([recordEvent recW], []) := by
  refine ⟨by decide, ?_, ?_⟩
  · exact (c3_idempotent_append_only [recW, recW] [] [recordEvent recW] [recW]
      (by decide)).1
  · exact (c3_idempotent_append_only [recW, recW] [] [recordEvent recW] [recW]
      (by decide)).2
